import Mathlib

/-!
Shallow embedding of the follow-graph service of the `nexus-engine`
repository (Django apps under `src/api/profiles`).

The data model follows `src/api/profiles/models.py`:
  * `Profile` rows (here `ProfileRec`) carry a primary key and the owning
    user's id (the `OneToOneField` to the user model).
  * `Follow` rows carry a primary key, the `follower` and `following`
    profile ids, and the `created_at` timestamp (`auto_now_add`).

The database is modelled as lists of rows together with the id sequences
and a logical clock supplying `auto_now_add` timestamps.  Each HTTP-level
operation of `src/api/profiles/views.py` / `serializers.py` /
`helpers.py` is translated into a function from a database state (plus
request data) to a new state and an `Except`-style outcome; Django
exceptions (`Http404` from `get_object_or_404`, `ValidationError`,
`Profile.DoesNotExist`, `AttributeError` on a missing current profile)
become constructors of `ApiError`.
-/

/-- A row of the `Profile` table: primary key and owning user id.
The remaining columns (bio, location, ...) play no role in the
follow-graph claims. -/
structure ProfileRec where
  id : Nat
  user : Nat
deriving DecidableEq, Repr

/-- A row of the `Follow` table: primary key, `follower` and `following`
foreign keys, and `created_at` (from `models.py`, `Follow`). -/
structure Follow where
  id : Nat
  follower : Nat
  following : Nat
  created_at : Nat
deriving DecidableEq, Repr

/-- The relational store: the two tables, the two id sequences, and a
logical clock producing strictly increasing `auto_now_add` timestamps. -/
structure DB where
  profiles : List ProfileRec
  follows : List Follow
  nextProfileId : Nat
  nextFollowId : Nat
  clock : Nat
deriving DecidableEq, Repr

/-- Error outcomes surfaced by the views.
`notFound` is Django's `Http404` (raised by `get_object_or_404`);
`duplicateFollow` and `selfFollow` are the two `ValidationError`s of
`CreateFollowSerializer.validate_following_id`; `doesNotExist` is the
`Profile.DoesNotExist` raised by `Profile.objects.get` in
`FollowViewSet.get_current_profile`; `noneTypeError` is the
`AttributeError` hit when `get_profiles_with_follow_info` dereferences
`current_profile.pk` on a viewer without a profile. -/
inductive ApiError where
  | notFound
  | duplicateFollow
  | selfFollow
  | doesNotExist
  | noneTypeError
deriving DecidableEq, Repr

/-- The empty database (state of a fresh deployment). -/
def DB.empty : DB := ⟨[], [], 1, 1, 1⟩

/-- Model of `Profile.objects.filter(user=u).first()` — helper
`get_current_profile` in `helpers.py` (the anonymous-user case is the
`Option.none` argument at call sites). -/
def findProfileByUser (db : DB) (u : Nat) : Option ProfileRec :=
  db.profiles.find? (fun p => p.user == u)

/-- Model of the `get_object_or_404(Profile, id=pk)`-style lookup. -/
def findProfileById (db : DB) (pk : Nat) : Option ProfileRec :=
  db.profiles.find? (fun p => p.id == pk)

/-- Model of `CreateFollowSerializer.validate_following_id` (`serializers.py`):
first `get_object_or_404(Profile, id=value)`, then the duplicate-follow
check, then the self-follow check, in exactly that order. -/
def validate_following_id (db : DB) (currentProfileId followingId : Nat) :
    Except ApiError Unit :=
  if (findProfileById db followingId).isNone then .error .notFound
  else if db.follows.any
      (fun f => f.follower == currentProfileId && f.following == followingId) then
    .error .duplicateFollow
  else if currentProfileId == followingId then .error .selfFollow
  else .ok ()

/-- Model of `POST /follow/` — `FollowViewSet.create`:
`get_current_profile` uses `Profile.objects.get(user=request.user)`
(raises `DoesNotExist` when absent), the serializer validates
`following_id`, and `perform_create` saves a new `Follow` row with
`follower` set to the current profile and a server-assigned timestamp.
On any error the transaction leaves the store untouched. -/
def followRequest (db : DB) (viewerUser : Nat) (followingId : Nat) :
    DB × Except ApiError Follow :=
  match findProfileByUser db viewerUser with
  | none => (db, .error .doesNotExist)
  | some cur =>
    match validate_following_id db cur.id followingId with
    | .error e => (db, .error e)
    | .ok _ =>
      let f : Follow :=
        { id := db.nextFollowId, follower := cur.id,
          following := followingId, created_at := db.clock }
      ({ db with follows := db.follows ++ [f],
                 nextFollowId := db.nextFollowId + 1,
                 clock := db.clock + 1 },
       .ok f)

/-- Model of `DELETE /follow/{pk}/` — `FollowViewSet.destroy` with
`FollowViewSet.get_object`: the edge is looked up with
`get_object_or_404(Follow, follower=current_profile, following_id=pk)`,
so absence and foreign ownership both surface as the same 404; on
success the found row is deleted. -/
def unfollowRequest (db : DB) (viewerUser : Nat) (followingId : Nat) :
    DB × Except ApiError Unit :=
  match findProfileByUser db viewerUser with
  | none => (db, .error .doesNotExist)
  | some cur =>
    match db.follows.find?
        (fun f => f.follower == cur.id && f.following == followingId) with
    | none => (db, .error .notFound)
    | some fl =>
      ({ db with follows := db.follows.filter (fun g => g.id != fl.id) }, .ok ())

/-- Model of `instance.followed_by.count()` — `add_follow_counts` in
`helpers.py`: the followers count is recomputed from the `Follow` table
on every read. -/
def countFollowers (db : DB) (pid : Nat) : Nat :=
  (db.follows.filter (fun f => f.following == pid)).length

/-- Model of `instance.follows.count()` — `add_follow_counts`: the following
count is recomputed from the `Follow` table on every read. -/
def countFollowing (db : DB) (pid : Nat) : Nat :=
  (db.follows.filter (fun f => f.follower == pid)).length

/-- Model of `Follow.objects.filter(following=profile).values_list("follower")` —
the queryset built by the `followers` action in `views.py`. -/
def listFollowersIds (db : DB) (pid : Nat) : List Nat :=
  (db.follows.filter (fun f => f.following == pid)).map Follow.follower

/-- Model of `Follow.objects.filter(follower=profile).values_list("following")` —
the queryset built by the `following` action (and the
`current_profile_following` queryset of `followers_i_know`). -/
def listFollowingIds (db : DB) (pid : Nat) : List Nat :=
  (db.follows.filter (fun f => f.follower == pid)).map Follow.following

/-- The `is_following` Case/When annotation of
`get_profiles_with_follow_info`: `None` when the row is the current
profile itself, otherwise `Exists(Follow.objects.filter(
following=OuterRef("pk"), follower=current_profile))`. -/
def is_following_info (db : DB) (curId pk : Nat) : Option Bool :=
  if pk == curId then none
  else some (db.follows.any (fun f => f.follower == curId && f.following == pk))

/-- The `follows_you` Case/When annotation of
`get_profiles_with_follow_info`: `None` on the current profile's own
row, otherwise `Exists(Follow.objects.filter(follower=OuterRef("pk"),
following=current_profile))`. -/
def follows_you_info (db : DB) (curId pk : Nat) : Option Bool :=
  if pk == curId then none
  else some (db.follows.any (fun f => f.follower == pk && f.following == curId))

/-- One serialized row of the list endpoints: the profile id together
with the two viewer-relative annotations. -/
structure AnnotatedRow where
  id : Nat
  is_following : Option Bool
  follows_you : Option Bool
deriving DecidableEq, Repr

/-- Build the serialized row for one profile as
`get_profiles_with_follow_info` annotates it for viewer `curId`. -/
def annotateRow (db : DB) (curId : Nat) (p : ProfileRec) : AnnotatedRow :=
  { id := p.id,
    is_following := is_following_info db curId p.id,
    follows_you := follows_you_info db curId p.id }

/-- Model of `get_profiles_in_queryset` (`helpers.py` / `views.py`): the
annotated profile queryset filtered by `id__in=queryset` and ordered by
`order_by("id")`, then serialized. -/
def get_profiles_in_queryset (db : DB) (curId : Nat) (ids : List Nat) :
    List AnnotatedRow :=
  (((db.profiles.filter (fun p => ids.contains p.id)).mergeSort
      (fun a b => a.id ≤ b.id)).map (annotateRow db curId))

/-- Model of `GET /profiles/{pk}/followers/` — the `followers` action:
`self.get_object()` 404s on an unknown profile, then
`get_profiles_in_queryset` runs `get_profiles_with_follow_info`, whose
`current_profile.pk` dereference fails if the authenticated viewer has
no profile row. -/
def followersRequest (db : DB) (viewerUser : Nat) (pk : Nat) :
    Except ApiError (List AnnotatedRow) :=
  match findProfileById db pk with
  | none => .error .notFound
  | some _ =>
    match findProfileByUser db viewerUser with
    | none => .error .noneTypeError
    | some cur => .ok (get_profiles_in_queryset db cur.id (listFollowersIds db pk))

/-- Model of `GET /profiles/{pk}/following/` — the `following` action, same
shape as `followersRequest`. -/
def followingRequest (db : DB) (viewerUser : Nat) (pk : Nat) :
    Except ApiError (List AnnotatedRow) :=
  match findProfileById db pk with
  | none => .error .notFound
  | some _ =>
    match findProfileByUser db viewerUser with
    | none => .error .noneTypeError
    | some cur => .ok (get_profiles_in_queryset db cur.id (listFollowingIds db pk))

/-- Model of `GET /profiles/{pk}/followers-i-know/` — the `followers_i_know`
action: the viewer's following queryset, the subject's followers
queryset, their SQL `INTERSECT` (set semantics), then
`get_profiles_in_queryset`. -/
def followersIKnowRequest (db : DB) (viewerUser : Nat) (pk : Nat) :
    Except ApiError (List AnnotatedRow) :=
  match findProfileById db pk with
  | none => .error .notFound
  | some _ =>
    match findProfileByUser db viewerUser with
    | none => .error .noneTypeError
    | some cur =>
      let current_profile_following := listFollowingIds db cur.id
      let followers := listFollowersIds db pk
      let followers_i_know :=
        followers.filter (fun x => current_profile_following.contains x)
      .ok (get_profiles_in_queryset db cur.id followers_i_know)

/-- The representation returned for a single profile by `retrieve` and
the `me` action (`UserProfileSerializer`): all four follow-derived
fields are declared `required=False`, so they are omitted (`none`)
whenever the view did not attach them. -/
structure RetrievedProfile where
  id : Nat
  is_following : Option Bool
  follows_you : Option Bool
  followers_count : Option Nat
  following_count : Option Nat
deriving DecidableEq, Repr

/-- Model of `GET /profiles/{pk}/` — `get_retrieve_object` (`views.py`):
`get_object_or_404` on the pk, then, unless the (possibly absent)
current profile is the instance itself, `add_follow_fields` (only when
a current profile exists) and `add_follow_counts`. -/
def retrieveRequest (db : DB) (viewerUser : Option Nat) (pk : Nat) :
    Except ApiError RetrievedProfile :=
  match findProfileById db pk with
  | none => .error .notFound
  | some inst =>
    let current_profile : Option ProfileRec :=
      match viewerUser with
      | none => none
      | some u => findProfileByUser db u
    if current_profile.map ProfileRec.id = some inst.id then
      .ok { id := inst.id, is_following := none, follows_you := none,
            followers_count := none, following_count := none }
    else
      .ok { id := inst.id,
            is_following := current_profile.map (fun c =>
              db.follows.any (fun f => f.follower == c.id && f.following == inst.id)),
            follows_you := current_profile.map (fun c =>
              db.follows.any (fun f => f.follower == inst.id && f.following == c.id)),
            followers_count := some (countFollowers db inst.id),
            following_count := some (countFollowing db inst.id) }

/-- Model of `GET /profiles/me/` — the `me` action with `get_me_object`:
`Profile.objects.get_or_create(user=request.user)`, then serialization
without any follow annotation (neither `add_follow_fields` nor
`add_follow_counts` is called on this path). -/
def meGetRequest (db : DB) (viewerUser : Nat) : DB × RetrievedProfile :=
  match findProfileByUser db viewerUser with
  | some p =>
    (db, { id := p.id, is_following := none, follows_you := none,
           followers_count := none, following_count := none })
  | none =>
    let p : ProfileRec := { id := db.nextProfileId, user := viewerUser }
    ({ db with profiles := db.profiles ++ [p],
               nextProfileId := db.nextProfileId + 1 },
     { id := p.id, is_following := none, follows_you := none,
       followers_count := none, following_count := none })

/-- Deleting a profile row: Django's `on_delete=CASCADE` on both
`Follow.follower` and `Follow.following` removes every edge referencing
the deleted profile. -/
def deleteProfileCascade (db : DB) (pid : Nat) : DB :=
  { db with
    profiles := db.profiles.filter (fun p => p.id != pid),
    follows := db.follows.filter (fun f => f.follower != pid && f.following != pid) }

/-- Model of `DELETE /profiles/me/` — the `me` action with the `DELETE` branch of
`get_me_object`: `get_object_or_404(Profile, user=request.user)`, then
`current_profile.delete()` with its cascades. -/
def meDeleteRequest (db : DB) (viewerUser : Nat) : DB × Except ApiError Unit :=
  match findProfileByUser db viewerUser with
  | none => (db, .error .notFound)
  | some p => (deleteProfileCascade db p.id, .ok ())

/-- Number of `Follow` rows for one (follower, following) pair. -/
def pairCount (db : DB) (a b : Nat) : Nat :=
  (db.follows.filter (fun f => f.follower == a && f.following == b)).length

/-- The key of a `Follow` row under the `unique_follow` constraint. -/
def Follow.pair (f : Follow) : Nat × Nat := (f.follower, f.following)

/-- Well-formedness of a database state: primary keys are unique and
below their sequences, timestamps are below the clock, and the
`Follow` table satisfies the `unique_follow` constraint, the
`no_self_follow` constraint, and referential integrity of both foreign
keys. -/
def DBInv (db : DB) : Prop :=
  (db.profiles.map ProfileRec.id).Nodup ∧
  (∀ p ∈ db.profiles, p.id < db.nextProfileId) ∧
  (db.follows.map Follow.id).Nodup ∧
  (∀ f ∈ db.follows, f.id < db.nextFollowId) ∧
  (∀ f ∈ db.follows, f.created_at < db.clock) ∧
  (db.follows.map Follow.pair).Nodup ∧
  (∀ f ∈ db.follows, f.follower ≠ f.following) ∧
  (∀ f ∈ db.follows, f.follower ∈ db.profiles.map ProfileRec.id) ∧
  (∀ f ∈ db.follows, f.following ∈ db.profiles.map ProfileRec.id)

/-- One state-changing request handled by the service: follow,
unfollow, profile get-or-create (`me` GET/PATCH, `upload-image`), or
profile deletion (`me` DELETE).  The read-only endpoints never touch
the store. -/
inductive Step : DB → DB → Prop where
  | follow (db : DB) (u t : Nat) : Step db (followRequest db u t).1
  | unfollow (db : DB) (u t : Nat) : Step db (unfollowRequest db u t).1
  | meGet (db : DB) (u : Nat) : Step db (meGetRequest db u).1
  | meDelete (db : DB) (u : Nat) : Step db (meDeleteRequest db u).1

/-- States reachable from a fresh deployment by any request sequence. -/
def Reachable (db : DB) : Prop :=
  Relation.ReflTransGen Step DB.empty db

instance (db : DB) : Decidable (DBInv db) := by
  unfold DBInv
  infer_instance

/-- A populated example store: five profiles; profiles 2, 3 and 4 all
follow profile 5, and profile 1 (user 10) follows profiles 2 and 3.
This is the database produced by replaying that request sequence. -/
def dbEx : DB :=
  ⟨[⟨1, 10⟩, ⟨2, 20⟩, ⟨3, 30⟩, ⟨4, 40⟩, ⟨5, 50⟩],
   [⟨1, 2, 5, 1⟩, ⟨2, 3, 5, 2⟩, ⟨3, 4, 5, 3⟩, ⟨4, 1, 2, 4⟩, ⟨5, 1, 3, 5⟩],
   6, 6, 6⟩

/-- The state left by a successful unfollow of pair (a, b): every row
matching the pair removed (with the `unique_follow` invariant there is
exactly one such row, the one the view deleted by primary key). -/
def unfollowPairFilter (db : DB) (a b : Nat) : DB :=
  { db with follows :=
      db.follows.filter (fun g => !(g.follower == a && g.following == b)) }

/-- A small state reached by an explicit request trace: two profiles
are lazily created via `me`, then user 10's profile follows profile 2. -/
def dbDemo : DB :=
  (followRequest (meGetRequest (meGetRequest DB.empty 10).1 20).1 10 2).1

/-! ### List helper lemmas -/

theorem length_filter_key_eq_one {α β : Type} [BEq β] [LawfulBEq β]
    (key : α → β) (l : List α) (hnd : (l.map key).Nodup)
    (e : α) (he : e ∈ l) :
    (l.filter (fun x => key x == key e)).length = 1 := by
  induction l with
  | nil => cases he
  | cons x t ih =>
    rw [List.map_cons, List.nodup_cons] at hnd
    rcases List.mem_cons.mp he with rfl | het
    · rw [List.filter_cons_of_pos (by simp)]
      have ht : t.filter (fun y => key y == key e) = [] := by
        rw [List.filter_eq_nil_iff]
        intro y hy hk
        exact hnd.1 ((beq_iff_eq.mp hk) ▸ List.mem_map_of_mem key hy)
      simp [ht]
    · have hxe : (key x == key e) = false := by
        rw [beq_eq_false_iff_ne]
        intro hk
        exact hnd.1 (hk ▸ List.mem_map_of_mem key het)
      rw [List.filter_cons_of_neg (by simp [hxe])]
      exact ih hnd.2 het

theorem length_filter_key_ne_add_one {α β : Type} [BEq β] [LawfulBEq β]
    (key : α → β) (l : List α) (hnd : (l.map key).Nodup)
    (e : α) (he : e ∈ l) :
    (l.filter (fun x => key x != key e)).length + 1 = l.length := by
  induction l with
  | nil => cases he
  | cons x t ih =>
    rw [List.map_cons, List.nodup_cons] at hnd
    rcases List.mem_cons.mp he with rfl | het
    · rw [List.filter_cons_of_neg (by simp)]
      have ht : t.filter (fun y => key y != key e) = t := by
        rw [List.filter_eq_self]
        intro y hy
        simp only [bne_iff_ne, ne_eq]
        intro hk
        exact hnd.1 (hk ▸ List.mem_map_of_mem key hy)
      simp [ht]
    · have hxe : (key x != key e) = true := by
        simp only [bne_iff_ne, ne_eq]
        intro hk
        exact hnd.1 (hk ▸ List.mem_map_of_mem key het)
      rw [List.filter_cons]
      simp only [hxe, if_true, List.length_cons]
      have h := ih hnd.2 het
      omega

theorem mem_map_id_of_nodup_inj {α β : Type} (key : α → β) (l : List α)
    (hnd : (l.map key).Nodup) :
    ∀ x ∈ l, ∀ y ∈ l, key x = key y → x = y := by
  induction l with
  | nil => intro x hx; cases hx
  | cons a t ih =>
    rw [List.map_cons, List.nodup_cons] at hnd
    intro x hx y hy hk
    rcases List.mem_cons.mp hx with rfl | hxt <;>
      rcases List.mem_cons.mp hy with rfl | hyt
    · rfl
    · exact absurd (hk ▸ List.mem_map_of_mem key hyt) hnd.1
    · exact absurd (hk ▸ List.mem_map_of_mem key hxt) (by
        intro hmem
        exact hnd.1 (by simpa [hk] using hmem))
    · exact ih hnd.2 x hxt y hyt hk

theorem any_eq_of_perm {α : Type} {l₁ l₂ : List α} (p : α → Bool)
    (h : l₁.Perm l₂) : l₁.any p = l₂.any p := by
  rw [Bool.eq_iff_iff, List.any_eq_true, List.any_eq_true]
  constructor <;> rintro ⟨x, hx, hpx⟩
  · exact ⟨x, h.mem_iff.mp hx, hpx⟩
  · exact ⟨x, h.mem_iff.mpr hx, hpx⟩

/-! ### Equation lemmas for `followRequest` -/

theorem follows_any_eq_false {db : DB} {a b : Nat}
    (hnew : ∀ f ∈ db.follows, ¬(f.follower = a ∧ f.following = b)) :
    db.follows.any (fun f => f.follower == a && f.following == b) = false := by
  rw [List.any_eq_false]
  intro f hf
  simp only [Bool.and_eq_true, beq_iff_eq, not_and]
  intro h1 h2
  exact hnew f hf ⟨h1, h2⟩

theorem followRequest_success (db : DB) (u B : Nat) (cur : ProfileRec)
    (hcur : findProfileByUser db u = some cur)
    (hB : (findProfileById db B).isSome = true)
    (hnew : ∀ f ∈ db.follows, ¬(f.follower = cur.id ∧ f.following = B))
    (hAB : cur.id ≠ B) :
    followRequest db u B =
      ({ db with
          follows := db.follows ++ [⟨db.nextFollowId, cur.id, B, db.clock⟩],
          nextFollowId := db.nextFollowId + 1,
          clock := db.clock + 1 },
       .ok ⟨db.nextFollowId, cur.id, B, db.clock⟩) := by
  obtain ⟨pb, hpb⟩ := Option.isSome_iff_exists.mp hB
  have hbeq : (cur.id == B) = false := beq_eq_false_iff_ne.mpr hAB
  simp [followRequest, validate_following_id, hcur, hpb,
    follows_any_eq_false hnew, hbeq]

/-- Claim C6: for every profile A (the authenticated viewer's own profile, in
any well-formed state): `Follow(A,A)` fails with the self-follow
validation error, creates no edge, and leaves the store — hence every
follower/following count — unchanged. -/
theorem self_follow_rejected (db : DB) (u : Nat) (cur : ProfileRec)
    (hInv : DBInv db) (hcur : findProfileByUser db u = some cur) :
    followRequest db u cur.id = (db, .error .selfFollow) := by
  obtain ⟨-, -, -, -, -, -, hself, -, -⟩ := hInv
  have hmem : cur ∈ db.profiles := List.mem_of_find?_eq_some hcur
  have hB : (findProfileById db cur.id).isSome = true :=
    List.find?_isSome.mpr ⟨cur, hmem, by simp⟩
  obtain ⟨pb, hpb⟩ := Option.isSome_iff_exists.mp hB
  have hany :
      db.follows.any (fun f => f.follower == cur.id && f.following == cur.id)
        = false :=
    follows_any_eq_false (fun f hf h => hself f hf (h.1.trans h.2.symm))
  simp [followRequest, validate_following_id, hcur, hpb, hany]

theorem self_follow_rejected_witness :
    followRequest dbEx 10 1 = (dbEx, .error .selfFollow) :=
  self_follow_rejected dbEx 10 ⟨1, 10⟩ (by decide) (by decide)

/-- Claim C7: if the edge (A,B) already exists, a second `Follow(A,B)` fails
with the duplicate-follow validation error; the store is unchanged and
the number of rows for the pair stays exactly 1. -/
theorem duplicate_follow_rejected (db : DB) (u B : Nat) (cur : ProfileRec)
    (e : Follow) (hInv : DBInv db) (hcur : findProfileByUser db u = some cur)
    (he : e ∈ db.follows) (hef : e.follower = cur.id) (heg : e.following = B) :
    followRequest db u B = (db, .error .duplicateFollow) ∧
    pairCount db cur.id B = 1 := by
  obtain ⟨-, -, -, -, -, hpairs, -, -, href2⟩ := hInv
  obtain ⟨p, hp, hpid⟩ := List.mem_map.mp (href2 e he)
  have hB : (findProfileById db B).isSome = true :=
    List.find?_isSome.mpr ⟨p, hp, by simp [hpid, heg]⟩
  obtain ⟨pb, hpb⟩ := Option.isSome_iff_exists.mp hB
  have hany :
      db.follows.any (fun f => f.follower == cur.id && f.following == B)
        = true :=
    List.any_eq_true.mpr ⟨e, he, by simp [hef, heg]⟩
  constructor
  · simp [followRequest, validate_following_id, hcur, hpb, hany]
  · have hcong :
        db.follows.filter (fun f => f.follower == cur.id && f.following == B) =
        db.follows.filter (fun f => Follow.pair f == Follow.pair e) := by
      apply List.filter_congr
      intro x _
      rw [Bool.eq_iff_iff]
      simp [Follow.pair, Prod.ext_iff, hef, heg]
    rw [pairCount, hcong]
    exact length_filter_key_eq_one Follow.pair db.follows hpairs e he

theorem duplicate_follow_rejected_witness :
    followRequest dbEx 10 2 = (dbEx, .error .duplicateFollow) ∧
    pairCount dbEx 1 2 = 1 :=
  duplicate_follow_rejected dbEx 10 2 ⟨1, 10⟩ ⟨4, 1, 2, 4⟩
    (by decide) (by decide) (by decide) (by decide) (by decide)

/-- Claim C1: from any state without the edge (A,B), A ≠ B, a successful
`Follow(A,B)` yields a state where `IsFollowing(A,B)` and
`FollowsYou(B,A)` are true and B's followers count and A's following
count each grow by exactly 1; both counts are, by definition, the
length of a fresh filter of the current edge table (read-time
recomputation, no stored counter is involved). -/
theorem follow_updates_views_and_counts (db : DB) (u B : Nat)
    (cur : ProfileRec)
    (hcur : findProfileByUser db u = some cur)
    (hB : (findProfileById db B).isSome = true)
    (hAB : cur.id ≠ B)
    (hnew : ∀ f ∈ db.follows, ¬(f.follower = cur.id ∧ f.following = B)) :
    ∃ db' fl, followRequest db u B = (db', Except.ok fl) ∧
      is_following_info db' cur.id B = some true ∧
      follows_you_info db' B cur.id = some true ∧
      countFollowers db' B = countFollowers db B + 1 ∧
      countFollowing db' cur.id = countFollowing db cur.id + 1 ∧
      countFollowers db' B =
        (db'.follows.filter (fun f => f.following == B)).length ∧
      countFollowing db' cur.id =
        (db'.follows.filter (fun f => f.follower == cur.id)).length := by
  have hBA : (B == cur.id) = false := beq_eq_false_iff_ne.mpr (Ne.symm hAB)
  have hABb : (cur.id == B) = false := beq_eq_false_iff_ne.mpr hAB
  refine ⟨_, _, followRequest_success db u B cur hcur hB hnew hAB,
    ?_, ?_, ?_, ?_, rfl, rfl⟩
  · simp [is_following_info, hBA, List.any_append]
  · simp [follows_you_info, hABb, List.any_append]
  · simp [countFollowers, List.filter_append]
  · simp [countFollowing, List.filter_append]

theorem follow_updates_views_and_counts_witness :
    ∃ db' fl, followRequest dbEx 40 2 = (db', Except.ok fl) ∧
      is_following_info db' 4 2 = some true ∧
      follows_you_info db' 2 4 = some true ∧
      countFollowers db' 2 = countFollowers dbEx 2 + 1 ∧
      countFollowing db' 4 = countFollowing dbEx 4 + 1 ∧
      countFollowers db' 2 =
        (db'.follows.filter (fun f => f.following == 2)).length ∧
      countFollowing db' 4 =
        (db'.follows.filter (fun f => f.follower == 4)).length :=
  follow_updates_views_and_counts dbEx 40 2 ⟨4, 40⟩
    (by decide) (by decide) (by decide) (by decide)

/-- Claim C3: for V ≠ T the `is_following` annotation is exactly "the edge
(V,T) exists" and the `follows_you` annotation is exactly "the edge
(T,V) exists"; on a self-view (V = T) both annotations are the SQL NULL
sentinel, never a boolean. -/
theorem follow_view_booleans_match_edges (db : DB) (V T : Nat) :
    (V ≠ T →
      is_following_info db V T =
        some (decide (∃ f ∈ db.follows, f.follower = V ∧ f.following = T)) ∧
      follows_you_info db V T =
        some (decide (∃ f ∈ db.follows, f.follower = T ∧ f.following = V))) ∧
    is_following_info db V V = none ∧ follows_you_info db V V = none := by
  refine ⟨fun hVT => ⟨?_, ?_⟩, by simp [is_following_info],
    by simp [follows_you_info]⟩
  · have h : (T == V) = false := beq_eq_false_iff_ne.mpr (Ne.symm hVT)
    simp only [is_following_info, h, Bool.false_eq_true, if_false,
      Option.some.injEq]
    rw [Bool.eq_iff_iff, List.any_eq_true, decide_eq_true_eq]
    constructor
    · rintro ⟨f, hf, hp⟩
      exact ⟨f, hf, by simpa using hp⟩
    · rintro ⟨f, hf, h1, h2⟩
      exact ⟨f, hf, by simp [h1, h2]⟩
  · have h : (T == V) = false := beq_eq_false_iff_ne.mpr (Ne.symm hVT)
    simp only [follows_you_info, h, Bool.false_eq_true, if_false,
      Option.some.injEq]
    rw [Bool.eq_iff_iff, List.any_eq_true, decide_eq_true_eq]
    constructor
    · rintro ⟨f, hf, hp⟩
      exact ⟨f, hf, by simpa [and_comm] using hp⟩
    · rintro ⟨f, hf, h1, h2⟩
      exact ⟨f, hf, by simp [h1, h2]⟩

theorem follow_view_booleans_match_edges_witness :
    is_following_info dbEx 1 2 = some true ∧
    follows_you_info dbEx 2 1 = some true ∧
    is_following_info dbEx 1 1 = none ∧
    follows_you_info dbEx 1 1 = none :=
  ⟨((follow_view_booleans_match_edges dbEx 1 2).1 (by decide)).1.trans
      (by decide),
   ((follow_view_booleans_match_edges dbEx 2 1).1 (by decide)).2.trans
      (by decide),
   (follow_view_booleans_match_edges dbEx 1 9).2.1,
   (follow_view_booleans_match_edges dbEx 1 9).2.2⟩

/-- Claim C4: an `Unfollow` deletes exactly the caller's edge to the target when
it exists; when the caller has no such edge — including when the edge
exists but belongs to a different follower, since the lookup is scoped
to the caller's own profile — the request returns the same not-found
error with the store unchanged, so ownership failure and absence are
indistinguishable; repeating a successful `Unfollow` returns not-found
rather than silently succeeding. -/
theorem unfollow_owner_scoped (db : DB) (u B : Nat) (cur : ProfileRec)
    (hInv : DBInv db) (hcur : findProfileByUser db u = some cur) :
    ((∀ e ∈ db.follows, ¬(e.follower = cur.id ∧ e.following = B)) →
      unfollowRequest db u B = (db, .error .notFound)) ∧
    (∀ e ∈ db.follows, e.follower = cur.id → e.following = B →
      unfollowRequest db u B = (unfollowPairFilter db cur.id B, .ok ()) ∧
      (∀ g, g ∈ (unfollowRequest db u B).1.follows ↔
          g ∈ db.follows ∧ ¬(g.follower = cur.id ∧ g.following = B)) ∧
      (unfollowRequest db u B).1.follows.length + 1 = db.follows.length ∧
      unfollowRequest (unfollowRequest db u B).1 u B =
        ((unfollowRequest db u B).1, .error .notFound)) := by
  obtain ⟨-, -, hnd2, -, -, hpairs, -, -, -⟩ := hInv
  constructor
  · intro habs
    have hfn : db.follows.find?
        (fun f => f.follower == cur.id && f.following == B) = none := by
      rw [List.find?_eq_none]
      intro f hf
      simp only [Bool.and_eq_true, beq_iff_eq, not_and]
      intro h1 h2
      exact habs f hf ⟨h1, h2⟩
    simp [unfollowRequest, hcur, hfn]
  · intro e he hef heg
    have hsome : (db.follows.find?
        (fun f => f.follower == cur.id && f.following == B)).isSome :=
      List.find?_isSome.mpr ⟨e, he, by simp [hef, heg]⟩
    obtain ⟨fl, hfl⟩ := Option.isSome_iff_exists.mp hsome
    have hflmem : fl ∈ db.follows := List.mem_of_find?_eq_some hfl
    have hflp := List.find?_some hfl
    simp only [Bool.and_eq_true, beq_iff_eq] at hflp
    have hGid : ∀ g ∈ db.follows,
        (g.id = fl.id ↔ (g.follower = cur.id ∧ g.following = B)) := by
      intro g hg
      constructor
      · intro h
        have hgfl : g = fl :=
          mem_map_id_of_nodup_inj Follow.id db.follows hnd2 g hg fl hflmem h
        rw [hgfl]
        exact hflp
      · rintro ⟨h1, h2⟩
        have hgfl : g = fl :=
          mem_map_id_of_nodup_inj Follow.pair db.follows hpairs g hg fl hflmem
            (by simp [Follow.pair, Prod.ext_iff, h1, h2, hflp.1, hflp.2])
        rw [hgfl]
    have hkey : ∀ g ∈ db.follows,
        (g.id != fl.id) = !(g.follower == cur.id && g.following == B) := by
      intro g hg
      cases hb : (g.follower == cur.id && g.following == B) with
      | true =>
        have hp : g.follower = cur.id ∧ g.following = B := by simpa using hb
        have hgid : g.id = fl.id := (hGid g hg).mpr hp
        simp [hgid]
      | false =>
        have hp : ¬(g.follower = cur.id ∧ g.following = B) := by
          simpa using hb
        have hgid : g.id ≠ fl.id := fun h => hp ((hGid g hg).mp h)
        simp [hgid]
    have hfilter : db.follows.filter (fun g => g.id != fl.id) =
        db.follows.filter
          (fun g => !(g.follower == cur.id && g.following == B)) :=
      List.filter_congr hkey
    have heq : unfollowRequest db u B =
        (unfollowPairFilter db cur.id B, .ok ()) := by
      simp [unfollowRequest, unfollowPairFilter, hcur, hfl, hfilter]
    refine ⟨heq, ?_, ?_, ?_⟩
    · intro g
      rw [heq]
      simp only [unfollowPairFilter, List.mem_filter, Bool.not_eq_true']
      constructor
      · rintro ⟨hgm, hp⟩
        refine ⟨hgm, fun hcon => ?_⟩
        rw [hcon.1, hcon.2] at hp
        simp at hp
      · rintro ⟨hgm, hp⟩
        refine ⟨hgm, ?_⟩
        cases hb : (g.follower == cur.id && g.following == B) with
        | false => rfl
        | true => exact absurd (by simpa using hb) hp
    · rw [heq]
      have hlen := length_filter_key_ne_add_one Follow.id db.follows hnd2
        fl hflmem
      rw [hfilter] at hlen
      exact hlen
    · rw [heq]
      have hcur' : findProfileByUser (unfollowPairFilter db cur.id B) u =
          some cur := hcur
      have hfn' : ((unfollowPairFilter db cur.id B).follows).find?
          (fun f => f.follower == cur.id && f.following == B) = none := by
        rw [List.find?_eq_none]
        intro f hf
        have hmem := (List.mem_filter.mp hf).2
        simp only [Bool.not_eq_true'] at hmem
        simp [hmem]
      simp [unfollowRequest, hcur', hfn']

theorem unfollow_owner_scoped_witness :
    unfollowRequest dbEx 20 3 = (dbEx, .error .notFound) ∧
    (unfollowRequest dbEx 10 3).1.follows.length + 1 =
      dbEx.follows.length := by
  have h := unfollow_owner_scoped dbEx 20 3 ⟨2, 20⟩ (by decide) (by decide)
  have h2 := unfollow_owner_scoped dbEx 10 3 ⟨1, 10⟩ (by decide) (by decide)
  exact ⟨h.1 (by decide),
    ((h2.2 ⟨5, 1, 3, 5⟩ (by decide) (by decide) (by decide)).2.2).1⟩

/-- Claim C8: the sequence `Follow(A,B)`; `Unfollow(A,B)`; `Follow(A,B)` succeeds at every
step and the final state holds a brand-new edge — fresh primary key,
strictly newer `auto_now_add` timestamp — while the first, deleted row
is gone for good (no resurrection, no in-place update). -/
theorem refollow_creates_fresh_edge (db : DB) (u B : Nat) (cur : ProfileRec)
    (hInv : DBInv db) (hcur : findProfileByUser db u = some cur)
    (hB : (findProfileById db B).isSome = true)
    (hAB : cur.id ≠ B)
    (hnew : ∀ f ∈ db.follows, ¬(f.follower = cur.id ∧ f.following = B)) :
    ∃ db₁ f₁ db₂ db₃ f₂,
      followRequest db u B = (db₁, .ok f₁) ∧
      unfollowRequest db₁ u B = (db₂, .ok ()) ∧
      followRequest db₂ u B = (db₃, .ok f₂) ∧
      f₁.created_at < f₂.created_at ∧
      f₁.id ≠ f₂.id ∧
      f₂ ∈ db₃.follows ∧ f₁ ∉ db₃.follows := by
  obtain ⟨-, -, -, hidlt, -, -, -, -, -⟩ := hInv
  have h1 := followRequest_success db u B cur hcur hB hnew hAB
  refine ⟨{ db with
      follows := db.follows ++ [⟨db.nextFollowId, cur.id, B, db.clock⟩],
      nextFollowId := db.nextFollowId + 1, clock := db.clock + 1 },
    ⟨db.nextFollowId, cur.id, B, db.clock⟩,
    { db with nextFollowId := db.nextFollowId + 1, clock := db.clock + 1 },
    { db with
      follows := db.follows ++
        [⟨db.nextFollowId + 1, cur.id, B, db.clock + 1⟩],
      nextFollowId := db.nextFollowId + 2, clock := db.clock + 2 },
    ⟨db.nextFollowId + 1, cur.id, B, db.clock + 1⟩,
    h1, ?_, ?_, ?_, ?_, ?_, ?_⟩
  · -- the unfollow finds exactly the row just inserted and removes it
    have hfind₁ : (db.follows ++
          [(⟨db.nextFollowId, cur.id, B, db.clock⟩ : Follow)]).find?
        (fun f => f.follower == cur.id && f.following == B) =
        some ⟨db.nextFollowId, cur.id, B, db.clock⟩ := by
      rw [List.find?_append]
      have hl : db.follows.find?
          (fun f => f.follower == cur.id && f.following == B) = none := by
        rw [List.find?_eq_none]
        intro f hf
        simp only [Bool.and_eq_true, beq_iff_eq, not_and]
        intro hx hy
        exact hnew f hf ⟨hx, hy⟩
      rw [hl]
      simp
    have hfilt : (db.follows ++
          [(⟨db.nextFollowId, cur.id, B, db.clock⟩ : Follow)]).filter
        (fun g => g.id != db.nextFollowId) = db.follows := by
      rw [List.filter_append]
      have hself : [(⟨db.nextFollowId, cur.id, B, db.clock⟩ : Follow)].filter
          (fun g => g.id != db.nextFollowId) = [] := by
        simp
      have hall : db.follows.filter (fun g => g.id != db.nextFollowId) =
          db.follows := by
        rw [List.filter_eq_self]
        intro f hf
        simp only [bne_iff_ne, ne_eq]
        exact Nat.ne_of_lt (hidlt f hf)
      rw [hself, hall, List.append_nil]
    have hcur₁ : findProfileByUser ({ db with
        follows := db.follows ++ [⟨db.nextFollowId, cur.id, B, db.clock⟩],
        nextFollowId := db.nextFollowId + 1,
        clock := db.clock + 1 }) u = some cur := hcur
    simp only [unfollowRequest, hcur₁, hfind₁, hfilt]
  · exact followRequest_success _ u B cur hcur hB hnew hAB
  · show db.clock < db.clock + 1
    exact Nat.lt_succ_self _
  · show db.nextFollowId ≠ db.nextFollowId + 1
    exact Nat.ne_of_lt (Nat.lt_succ_self _)
  · show _ ∈ db.follows ++ _
    exact List.mem_append_right _ (List.mem_singleton.mpr rfl)
  · show _ ∉ db.follows ++ _
    intro hmem
    rcases List.mem_append.mp hmem with hl | hr
    · exact hnew _ hl ⟨rfl, rfl⟩
    · have heqf := List.mem_singleton.mp hr
      have hfid : db.nextFollowId = db.nextFollowId + 1 :=
        congrArg Follow.id heqf
      omega

theorem refollow_creates_fresh_edge_witness :
    ∃ db₁ f₁ db₂ db₃ f₂,
      followRequest dbEx 40 2 = (db₁, .ok f₁) ∧
      unfollowRequest db₁ 40 2 = (db₂, .ok ()) ∧
      followRequest db₂ 40 2 = (db₃, .ok f₂) ∧
      f₁.created_at < f₂.created_at ∧
      f₁.id ≠ f₂.id ∧
      f₂ ∈ db₃.follows ∧ f₁ ∉ db₃.follows :=
  refollow_creates_fresh_edge dbEx 40 2 ⟨4, 40⟩
    (by decide) (by decide) (by decide) (by decide) (by decide)

/-! ### The ordered, de-duplicated output of `get_profiles_in_queryset` -/

theorem map_id_annotate (db : DB) (c : Nat) (l : List ProfileRec) :
    (l.map (annotateRow db c)).map AnnotatedRow.id = l.map ProfileRec.id := by
  induction l with
  | nil => rfl
  | cons a t ih => simp [annotateRow, ih]

theorem nat_contains_iff (l : List Nat) (a : Nat) :
    l.contains a = true ↔ a ∈ l :=
  List.elem_iff

theorem get_profiles_in_queryset_spec (db : DB) (c : Nat) (ids : List Nat)
    (hnd : (db.profiles.map ProfileRec.id).Nodup) :
    ((get_profiles_in_queryset db c ids).map AnnotatedRow.id).Sorted (· ≤ ·) ∧
    ((get_profiles_in_queryset db c ids).map AnnotatedRow.id).Nodup ∧
    (∀ x, x ∈ (get_profiles_in_queryset db c ids).map AnnotatedRow.id ↔
      (x ∈ db.profiles.map ProfileRec.id ∧ x ∈ ids)) := by
  unfold get_profiles_in_queryset
  rw [map_id_annotate]
  refine ⟨?_, ?_, ?_⟩
  · refine List.pairwise_map.mpr
      (((List.sorted_mergeSort ?_ ?_
        (db.profiles.filter (fun p => ids.contains p.id))).imp
          (fun h => ?_)))
    · intro a b c2
      simp only [decide_eq_true_eq]
      omega
    · intro a b
      simp only [Bool.or_eq_true, decide_eq_true_eq]
      omega
    · simpa using h
  · have hperm := List.mergeSort_perm
      (db.profiles.filter (fun p => ids.contains p.id))
      (fun a b => a.id ≤ b.id)
    have hsub : ((db.profiles.filter
        (fun p => ids.contains p.id)).map ProfileRec.id).Nodup :=
      (List.Sublist.map ProfileRec.id (List.filter_sublist db.profiles)).nodup
        hnd
    exact ((hperm.map ProfileRec.id).nodup_iff).mpr hsub
  · intro x
    rw [List.mem_map]
    constructor
    · rintro ⟨p, hp, rfl⟩
      rw [List.mem_mergeSort] at hp
      obtain ⟨hpmem, hpc⟩ := List.mem_filter.mp hp
      exact ⟨List.mem_map_of_mem _ hpmem, (nat_contains_iff ids p.id).mp hpc⟩
    · rintro ⟨hx, hids⟩
      obtain ⟨p, hpmem, rfl⟩ := List.mem_map.mp hx
      exact ⟨p, List.mem_mergeSort.mpr (List.mem_filter.mpr
        ⟨hpmem, (nat_contains_iff ids p.id).mpr hids⟩), rfl⟩

/-- Claim C2: the endpoint `ListFollowersIKnow(P, V)` returns exactly the intersection of
P's followers with V's following set, as ids sorted ascending with no
duplicates, and the result is invariant under reordering (permutation)
of the underlying `Follow` rows, i.e. independent of the order in which
the edges were created. -/
theorem followers_i_know_sorted_intersection (db db₂ : DB) (u pk : Nat)
    (cur : ProfileRec) (hInv : DBInv db)
    (hcur : findProfileByUser db u = some cur)
    (hpk : (findProfileById db pk).isSome = true) :
    ∃ rows, followersIKnowRequest db u pk = .ok rows ∧
      (∀ x, x ∈ rows.map AnnotatedRow.id ↔
        (x ∈ listFollowersIds db pk ∧ x ∈ listFollowingIds db cur.id)) ∧
      (rows.map AnnotatedRow.id).Sorted (· ≤ ·) ∧
      (rows.map AnnotatedRow.id).Nodup ∧
      (db₂.profiles = db.profiles → db₂.follows.Perm db.follows →
        followersIKnowRequest db₂ u pk = followersIKnowRequest db u pk) := by
  obtain ⟨hnd1, -, -, -, -, -, -, href1, -⟩ := hInv
  obtain ⟨inst, hinst⟩ := Option.isSome_iff_exists.mp hpk
  have heq : followersIKnowRequest db u pk =
      .ok (get_profiles_in_queryset db cur.id
        ((listFollowersIds db pk).filter
          (fun x => (listFollowingIds db cur.id).contains x))) := by
    simp [followersIKnowRequest, hinst, hcur]
  obtain ⟨hsorted, hnodup, hmem⟩ := get_profiles_in_queryset_spec db cur.id
    ((listFollowersIds db pk).filter
      (fun x => (listFollowingIds db cur.id).contains x)) hnd1
  refine ⟨_, heq, ?_, hsorted, hnodup, ?_⟩
  · intro x
    rw [hmem x]
    constructor
    · rintro ⟨-, hfik⟩
      obtain ⟨hfol, hcont⟩ := List.mem_filter.mp hfik
      exact ⟨hfol, (nat_contains_iff _ x).mp hcont⟩
    · rintro ⟨hfol, hfoll⟩
      refine ⟨?_, List.mem_filter.mpr
        ⟨hfol, (nat_contains_iff _ x).mpr hfoll⟩⟩
      obtain ⟨f, hf, rfl⟩ := List.mem_map.mp hfol
      exact href1 f (List.mem_of_mem_filter hf)
  · intro hprof hperm
    have hpk₂ : findProfileById db₂ pk = some inst := by
      unfold findProfileById
      rw [hprof]
      exact hinst
    have hcur₂ : findProfileByUser db₂ u = some cur := by
      unfold findProfileByUser
      rw [hprof]
      exact hcur
    have hpermFol : (listFollowersIds db₂ pk).Perm (listFollowersIds db pk) :=
      (hperm.filter _).map _
    have hpermFolw : (listFollowingIds db₂ cur.id).Perm
        (listFollowingIds db cur.id) :=
      (hperm.filter _).map _
    have heq₂ : followersIKnowRequest db₂ u pk =
        .ok (get_profiles_in_queryset db₂ cur.id
          ((listFollowersIds db₂ pk).filter
            (fun x => (listFollowingIds db₂ cur.id).contains x))) := by
      simp [followersIKnowRequest, hpk₂, hcur₂]
    rw [heq, heq₂]
    congr 1
    have hpred : ∀ p : ProfileRec,
        (((listFollowersIds db₂ pk).filter
          (fun x => (listFollowingIds db₂ cur.id).contains x)).contains p.id) =
        (((listFollowersIds db pk).filter
          (fun x => (listFollowingIds db cur.id).contains x)).contains p.id) := by
      intro p
      rw [Bool.eq_iff_iff, nat_contains_iff, nat_contains_iff]
      constructor
      · intro h
        obtain ⟨h1, h2⟩ := List.mem_filter.mp h
        rw [nat_contains_iff] at h2
        exact List.mem_filter.mpr ⟨hpermFol.mem_iff.mp h1,
          (nat_contains_iff _ _).mpr (hpermFolw.mem_iff.mp h2)⟩
      · intro h
        obtain ⟨h1, h2⟩ := List.mem_filter.mp h
        rw [nat_contains_iff] at h2
        exact List.mem_filter.mpr ⟨hpermFol.mem_iff.mpr h1,
          (nat_contains_iff _ _).mpr (hpermFolw.mem_iff.mpr h2)⟩
    unfold get_profiles_in_queryset
    rw [hprof]
    rw [List.filter_congr (fun p _ => hpred p)]
    apply List.map_congr_left
    intro p hp
    unfold annotateRow is_following_info follows_you_info
    rw [any_eq_of_perm _ hperm, any_eq_of_perm _ hperm]

theorem followers_i_know_sorted_intersection_witness :
    ∃ rows, followersIKnowRequest dbEx 10 5 = .ok rows ∧
      (∀ x, x ∈ rows.map AnnotatedRow.id ↔
        (x ∈ listFollowersIds dbEx 5 ∧ x ∈ listFollowingIds dbEx 1)) ∧
      (rows.map AnnotatedRow.id).Sorted (· ≤ ·) ∧
      (rows.map AnnotatedRow.id).Nodup ∧
      (dbEx.profiles = dbEx.profiles → dbEx.follows.Perm dbEx.follows →
        followersIKnowRequest dbEx 10 5 = followersIKnowRequest dbEx 10 5) :=
  followers_i_know_sorted_intersection dbEx dbEx 10 5 ⟨1, 10⟩
    (by decide) (by decide) (by decide)

/-- Claim C9: when an authenticated viewer with a profile views their own
profile — via `retrieve` on their own pk or via the `me` action — the
returned representation carries neither the `is_following`/`follows_you`
booleans nor the `followers_count`/`following_count` annotations, and
the `me` GET on an existing profile does not modify the store. -/
theorem self_view_suppresses_follow_fields (db : DB) (u : Nat)
    (cur inst : ProfileRec)
    (hcur : findProfileByUser db u = some cur)
    (hinst : findProfileById db cur.id = some inst) :
    retrieveRequest db (some u) cur.id =
      .ok { id := cur.id, is_following := none, follows_you := none,
            followers_count := none, following_count := none } ∧
    (meGetRequest db u).2 =
      { id := cur.id, is_following := none, follows_you := none,
        followers_count := none, following_count := none } ∧
    (meGetRequest db u).1 = db := by
  have hid : inst.id = cur.id := by simpa using List.find?_some hinst
  refine ⟨?_, ?_, ?_⟩
  · simp [retrieveRequest, hinst, hcur, hid]
  · simp [meGetRequest, hcur]
  · simp [meGetRequest, hcur]

theorem self_view_suppresses_follow_fields_witness :
    retrieveRequest dbEx (some 10) 1 =
      .ok { id := 1, is_following := none, follows_you := none,
            followers_count := none, following_count := none } ∧
    (meGetRequest dbEx 10).2 =
      { id := 1, is_following := none, follows_you := none,
        followers_count := none, following_count := none } ∧
    (meGetRequest dbEx 10).1 = dbEx :=
  self_view_suppresses_follow_fields dbEx 10 ⟨1, 10⟩ ⟨1, 10⟩
    (by decide) (by decide)

theorem validate_error_cases (db : DB) (c t : Nat) (e : ApiError)
    (hv : validate_following_id db c t = .error e) :
    e = .notFound ∨ e = .duplicateFollow ∨ e = .selfFollow := by
  unfold validate_following_id at hv
  split_ifs at hv
  · left
    simpa using hv.symm
  · right
    left
    simpa using hv.symm
  · right
    right
    simpa using hv.symm

/-- Claim C10: every follow-graph operation presumes the authenticated viewer
already has a profile: with one, the missing-profile failures cannot
occur; none of these operations ever adds a profile row; without one,
`Follow`/`Unfollow` fail on the profile lookup and the list endpoints
fail dereferencing the absent current profile, all before any state
change; only the get-or-create path of `me`/`upload-image` lazily
creates the viewer's profile. -/
theorem viewer_profile_precondition (db : DB) (u t pk : Nat) :
    (∀ cur, findProfileByUser db u = some cur →
      (followRequest db u t).2 ≠ .error .doesNotExist ∧
      (unfollowRequest db u t).2 ≠ .error .doesNotExist ∧
      followersRequest db u pk ≠ .error .noneTypeError ∧
      followingRequest db u pk ≠ .error .noneTypeError ∧
      followersIKnowRequest db u pk ≠ .error .noneTypeError) ∧
    (followRequest db u t).1.profiles = db.profiles ∧
    (unfollowRequest db u t).1.profiles = db.profiles ∧
    (findProfileByUser db u = none →
      followRequest db u t = (db, .error .doesNotExist) ∧
      unfollowRequest db u t = (db, .error .doesNotExist) ∧
      ((findProfileById db pk).isSome = true →
        followersRequest db u pk = .error .noneTypeError ∧
        followingRequest db u pk = .error .noneTypeError ∧
        followersIKnowRequest db u pk = .error .noneTypeError)) ∧
    (findProfileByUser db u = none →
      (meGetRequest db u).1.profiles =
        db.profiles ++ [⟨db.nextProfileId, u⟩]) := by
  refine ⟨?_, ?_, ?_, ?_, ?_⟩
  · intro cur hcur
    refine ⟨?_, ?_, ?_, ?_, ?_⟩
    · cases hv : validate_following_id db cur.id t with
      | error e =>
        have he := validate_error_cases db cur.id t e hv
        simp only [followRequest, hcur, hv]
        rcases he with rfl | rfl | rfl <;> simp
      | ok v =>
        simp [followRequest, hcur, hv]
    · cases hfn : db.follows.find?
          (fun f => f.follower == cur.id && f.following == t) with
      | none => simp [unfollowRequest, hcur, hfn]
      | some fl => simp [unfollowRequest, hcur, hfn]
    · cases hpkc : findProfileById db pk with
      | none => simp [followersRequest, hpkc]
      | some inst => simp [followersRequest, hpkc, hcur]
    · cases hpkc : findProfileById db pk with
      | none => simp [followingRequest, hpkc]
      | some inst => simp [followingRequest, hpkc, hcur]
    · cases hpkc : findProfileById db pk with
      | none => simp [followersIKnowRequest, hpkc]
      | some inst => simp [followersIKnowRequest, hpkc, hcur]
  · cases hcu : findProfileByUser db u with
    | none => simp [followRequest, hcu]
    | some cur =>
      cases hv : validate_following_id db cur.id t with
      | error e => simp [followRequest, hcu, hv]
      | ok v => simp [followRequest, hcu, hv]
  · cases hcu : findProfileByUser db u with
    | none => simp [unfollowRequest, hcu]
    | some cur =>
      cases hfn : db.follows.find?
          (fun f => f.follower == cur.id && f.following == t) with
      | none => simp [unfollowRequest, hcu, hfn]
      | some fl => simp [unfollowRequest, hcu, hfn]
  · intro hnone
    refine ⟨by simp [followRequest, hnone], by simp [unfollowRequest, hnone],
      fun hpk => ?_⟩
    obtain ⟨inst, hinst⟩ := Option.isSome_iff_exists.mp hpk
    exact ⟨by simp [followersRequest, hinst, hnone],
      by simp [followingRequest, hinst, hnone],
      by simp [followersIKnowRequest, hinst, hnone]⟩
  · intro hnone
    simp [meGetRequest, hnone]

theorem viewer_profile_precondition_witness :
    (followRequest dbEx 10 4).2 ≠ .error .doesNotExist ∧
    followersRequest dbEx 10 5 ≠ .error .noneTypeError ∧
    (followRequest dbEx 99 4).1.profiles = dbEx.profiles ∧
    followRequest dbEx 99 4 = (dbEx, .error .doesNotExist) ∧
    followersRequest dbEx 99 5 = .error .noneTypeError ∧
    (meGetRequest dbEx 99).1.profiles = dbEx.profiles ++ [⟨6, 99⟩] := by
  have h1 := viewer_profile_precondition dbEx 10 4 5
  have h2 := viewer_profile_precondition dbEx 99 4 5
  have ha := h1.1 ⟨1, 10⟩ (by decide)
  have hc := h2.2.2.2.1 (by decide)
  exact ⟨ha.1, ha.2.2.1, h2.2.1, hc.1, (hc.2.2 (by decide)).1,
    h2.2.2.2.2 (by decide)⟩

/-! ### Preservation of the data-layer invariants -/

theorem DBInv_follow (db : DB) (h : DBInv db) (u t : Nat) :
    DBInv (followRequest db u t).1 := by
  cases hcu : findProfileByUser db u with
  | none => simpa [followRequest, hcu] using h
  | some cur =>
    cases hv : validate_following_id db cur.id t with
    | error e => simpa [followRequest, hcu, hv] using h
    | ok v =>
      unfold validate_following_id at hv
      split_ifs at hv with h1 h2 h3
      cases hfb : findProfileById db t with
      | none =>
        rw [hfb] at h1
        simp at h1
      | some pb =>
        have hnew : ∀ f ∈ db.follows,
            ¬(f.follower = cur.id ∧ f.following = t) := by
          intro f hf hcon
          exact h2 (List.any_eq_true.mpr ⟨f, hf, by
            simp [hcon.1, hcon.2]⟩)
        have hAB : cur.id ≠ t := by
          intro hcon
          exact h3 (by simp [hcon])
        have heq := followRequest_success db u t cur hcu
          (by rw [hfb]; rfl) hnew hAB
        have hgoal : (followRequest db u t).1 = { db with
            follows := db.follows ++ [⟨db.nextFollowId, cur.id, t, db.clock⟩],
            nextFollowId := db.nextFollowId + 1,
            clock := db.clock + 1 } := by
          rw [heq]
        rw [hgoal]
        obtain ⟨hnd1, hplt, hnd2, hflt, hclk, hpairs, hself, href1, href2⟩ := h
        have hcmem : cur ∈ db.profiles := List.mem_of_find?_eq_some hcu
        have hpbmem : pb ∈ db.profiles := List.mem_of_find?_eq_some hfb
        have hpbid : pb.id = t := by simpa using List.find?_some hfb
        refine ⟨hnd1, hplt, ?_, ?_, ?_, ?_, ?_, ?_, ?_⟩
        · rw [List.map_append]
          refine List.nodup_append.mpr ⟨hnd2, by simp, ?_⟩
          intro x hx hx2
          obtain ⟨f, hf, rfl⟩ := List.mem_map.mp hx
          simp only [List.map_cons, List.map_nil, List.mem_singleton] at hx2
          have := hflt f hf
          omega
        · intro f hf
          rcases List.mem_append.mp hf with hl | hr
          · exact Nat.lt_succ_of_lt (hflt f hl)
          · rw [List.mem_singleton.mp hr]
            exact Nat.lt_succ_self _
        · intro f hf
          rcases List.mem_append.mp hf with hl | hr
          · exact Nat.lt_succ_of_lt (hclk f hl)
          · rw [List.mem_singleton.mp hr]
            exact Nat.lt_succ_self _
        · rw [List.map_append]
          refine List.nodup_append.mpr ⟨hpairs, by simp, ?_⟩
          intro x hx hx2
          obtain ⟨f, hf, rfl⟩ := List.mem_map.mp hx
          simp only [List.map_cons, List.map_nil, List.mem_singleton] at hx2
          have hx3 : f.follower = cur.id ∧ f.following = t := by
            have := congrArg Prod.fst hx2
            have := congrArg Prod.snd hx2
            simp_all [Follow.pair]
          exact hnew f hf hx3
        · intro f hf
          rcases List.mem_append.mp hf with hl | hr
          · exact hself f hl
          · rw [List.mem_singleton.mp hr]
            exact hAB
        · intro f hf
          rcases List.mem_append.mp hf with hl | hr
          · exact href1 f hl
          · rw [List.mem_singleton.mp hr]
            exact List.mem_map_of_mem ProfileRec.id hcmem
        · intro f hf
          rcases List.mem_append.mp hf with hl | hr
          · exact href2 f hl
          · rw [List.mem_singleton.mp hr]
            exact hpbid ▸ List.mem_map_of_mem ProfileRec.id hpbmem

theorem DBInv_unfollow (db : DB) (h : DBInv db) (u t : Nat) :
    DBInv (unfollowRequest db u t).1 := by
  cases hcu : findProfileByUser db u with
  | none => simpa [unfollowRequest, hcu] using h
  | some cur =>
    cases hfn : db.follows.find?
        (fun f => f.follower == cur.id && f.following == t) with
    | none => simpa [unfollowRequest, hcu, hfn] using h
    | some fl =>
      have hgoal : (unfollowRequest db u t).1 =
          { db with follows := db.follows.filter (fun g => g.id != fl.id) } := by
        simp [unfollowRequest, hcu, hfn]
      rw [hgoal]
      obtain ⟨hnd1, hplt, hnd2, hflt, hclk, hpairs, hself, href1, href2⟩ := h
      have hsub : (db.follows.filter (fun g => g.id != fl.id)).Sublist
          db.follows := List.filter_sublist _
      exact ⟨hnd1, hplt, (hsub.map Follow.id).nodup hnd2,
        fun f hf => hflt f (hsub.subset hf),
        fun f hf => hclk f (hsub.subset hf),
        (hsub.map Follow.pair).nodup hpairs,
        fun f hf => hself f (hsub.subset hf),
        fun f hf => href1 f (hsub.subset hf),
        fun f hf => href2 f (hsub.subset hf)⟩

theorem DBInv_meGet (db : DB) (h : DBInv db) (u : Nat) :
    DBInv (meGetRequest db u).1 := by
  cases hcu : findProfileByUser db u with
  | some p => simpa [meGetRequest, hcu] using h
  | none =>
    have hgoal : (meGetRequest db u).1 = { db with
        profiles := db.profiles ++ [⟨db.nextProfileId, u⟩],
        nextProfileId := db.nextProfileId + 1 } := by
      simp [meGetRequest, hcu]
    rw [hgoal]
    obtain ⟨hnd1, hplt, hnd2, hflt, hclk, hpairs, hself, href1, href2⟩ := h
    refine ⟨?_, ?_, hnd2, hflt, hclk, hpairs, hself, ?_, ?_⟩
    · rw [List.map_append]
      refine List.nodup_append.mpr ⟨hnd1, by simp, ?_⟩
      intro x hx hx2
      obtain ⟨p, hp, rfl⟩ := List.mem_map.mp hx
      simp only [List.map_cons, List.map_nil, List.mem_singleton] at hx2
      have := hplt p hp
      omega
    · intro p hp
      rcases List.mem_append.mp hp with hl | hr
      · exact Nat.lt_succ_of_lt (hplt p hl)
      · rw [List.mem_singleton.mp hr]
        exact Nat.lt_succ_self _
    · intro f hf
      rw [List.map_append]
      exact List.mem_append_left _ (href1 f hf)
    · intro f hf
      rw [List.map_append]
      exact List.mem_append_left _ (href2 f hf)

theorem DBInv_meDelete (db : DB) (h : DBInv db) (u : Nat) :
    DBInv (meDeleteRequest db u).1 := by
  cases hcu : findProfileByUser db u with
  | none => simpa [meDeleteRequest, hcu] using h
  | some p =>
    have hgoal : (meDeleteRequest db u).1 = deleteProfileCascade db p.id := by
      simp [meDeleteRequest, hcu]
    rw [hgoal]
    unfold deleteProfileCascade
    obtain ⟨hnd1, hplt, hnd2, hflt, hclk, hpairs, hself, href1, href2⟩ := h
    have hsubP : (db.profiles.filter (fun q => q.id != p.id)).Sublist
        db.profiles := List.filter_sublist _
    have hsubF : (db.follows.filter
        (fun f => f.follower != p.id && f.following != p.id)).Sublist
        db.follows := List.filter_sublist _
    refine ⟨(hsubP.map ProfileRec.id).nodup hnd1,
      fun q hq => hplt q (hsubP.subset hq),
      (hsubF.map Follow.id).nodup hnd2,
      fun f hf => hflt f (hsubF.subset hf),
      fun f hf => hclk f (hsubF.subset hf),
      (hsubF.map Follow.pair).nodup hpairs,
      fun f hf => hself f (hsubF.subset hf), ?_, ?_⟩
    · intro f hf
      obtain ⟨hfm, hcond⟩ := List.mem_filter.mp hf
      simp only [Bool.and_eq_true, bne_iff_ne, ne_eq] at hcond
      obtain ⟨q, hq, hqid⟩ := List.mem_map.mp (href1 f hfm)
      refine List.mem_map.mpr ⟨q, List.mem_filter.mpr ⟨hq, ?_⟩, hqid⟩
      simp only [bne_iff_ne, ne_eq]
      rw [hqid]
      exact hcond.1
    · intro f hf
      obtain ⟨hfm, hcond⟩ := List.mem_filter.mp hf
      simp only [Bool.and_eq_true, bne_iff_ne, ne_eq] at hcond
      obtain ⟨q, hq, hqid⟩ := List.mem_map.mp (href2 f hfm)
      refine List.mem_map.mpr ⟨q, List.mem_filter.mpr ⟨hq, ?_⟩, hqid⟩
      simp only [bne_iff_ne, ne_eq]
      rw [hqid]
      exact hcond.2

theorem DBInv_step {a b : DB} (h : DBInv a) (s : Step a b) : DBInv b := by
  cases s with
  | follow u t => exact DBInv_follow a h u t
  | unfollow u t => exact DBInv_unfollow a h u t
  | meGet u => exact DBInv_meGet a h u
  | meDelete u => exact DBInv_meDelete a h u

theorem DBInv_reachable {db : DB} (h : Reachable db) : DBInv db := by
  unfold Reachable at h
  induction h with
  | refl => decide
  | tail hr hs ih => exact DBInv_step ih hs

/-- Claim C5: in every state reachable by any request sequence from a fresh
deployment, the data-layer invariants hold: the `unique_follow`
constraint (no two rows share a (follower, following) pair), the
`no_self_follow` constraint, and referential integrity of both foreign
keys; and deleting a profile cascades away every edge referencing it. -/
theorem reachable_states_satisfy_data_invariants (db : DB)
    (h : Reachable db) :
    (db.follows.map Follow.pair).Nodup ∧
    (∀ f ∈ db.follows, f.follower ≠ f.following) ∧
    (∀ f ∈ db.follows, f.follower ∈ db.profiles.map ProfileRec.id ∧
      f.following ∈ db.profiles.map ProfileRec.id) ∧
    (∀ pid, ∀ f ∈ (deleteProfileCascade db pid).follows,
      f.follower ≠ pid ∧ f.following ≠ pid) := by
  obtain ⟨-, -, -, -, -, hpairs, hself, href1, href2⟩ := DBInv_reachable h
  refine ⟨hpairs, hself, fun f hf => ⟨href1 f hf, href2 f hf⟩, ?_⟩
  intro pid f hf
  have hcond := (List.mem_filter.mp hf).2
  simp only [Bool.and_eq_true, bne_iff_ne, ne_eq] at hcond
  exact hcond

theorem reachable_dbDemo : Reachable dbDemo :=
  Relation.ReflTransGen.tail
    (Relation.ReflTransGen.tail
      (Relation.ReflTransGen.tail Relation.ReflTransGen.refl
        (Step.meGet DB.empty 10))
      (Step.meGet (meGetRequest DB.empty 10).1 20))
    (Step.follow (meGetRequest (meGetRequest DB.empty 10).1 20).1 10 2)

theorem reachable_states_satisfy_data_invariants_witness :
    (dbDemo.follows.map Follow.pair).Nodup ∧
    (∀ f ∈ dbDemo.follows, f.follower ≠ f.following) ∧
    (∀ f ∈ dbDemo.follows, f.follower ∈ dbDemo.profiles.map ProfileRec.id ∧
      f.following ∈ dbDemo.profiles.map ProfileRec.id) ∧
    (∀ pid, ∀ f ∈ (deleteProfileCascade dbDemo pid).follows,
      f.follower ≠ pid ∧ f.following ≠ pid) :=
  reachable_states_satisfy_data_invariants dbDemo reachable_dbDemo
